import Mathlib

/-!
Shallow embedding of the proof-of-contribution scoring pipeline implemented in
`my_proof/proof.py` and `my_proof/filebase_service.py`.

Modelling conventions:
* Parsed JSON / Python runtime values are modelled by the mutual inductive
  `PyValue` / `PyList` / `PyDict` (dictionaries keep insertion order, as CPython does).
* Python `float` scores are modelled as exact rationals (`Rat`); `round(x, 3)` is
  modelled as exact round-half-to-even on rationals (`pyRound3`).  The concrete
  values appearing in the pipeline are small decimal fractions, far away from the
  binary-float rounding boundaries.
* Fallible Python code (uncaught exceptions) is modelled with `Except String`.
* The remote Filebase/S3 object store is modelled by `S3Object`: the stored
  document for the single key `hash_list.json` at JSON-value level, a
  never-written key, or a transport failure.
* SHA-256 and HMAC-SHA-256 are implemented bit-faithfully over byte lists
  (validated against the standard test vectors below).
-/

set_option maxRecDepth 100000

namespace MyProof

/-- Characters that are awkward to spell inline. -/
def lbrace : Char := Char.ofNat 123

/-- Closing curly brace character. -/
def rbrace : Char := Char.ofNat 125

/-- Single-quote character. -/
def squote : Char := Char.ofNat 39

/-- Double-quote character. -/
def dquote : Char := Char.ofNat 34

/-- Backslash character. -/
def bslash : Char := Char.ofNat 92

mutual
/-- A Python runtime value as produced by `json.load` / `json.loads`:
`None`, `bool`, `int`, `float`, `str`, `list`, `dict` (string keys, insertion order). -/
inductive PyValue where
  | none
  | bool (b : Bool)
  | int (n : Int)
  | float (q : Rat)
  | str (s : String)
  | list (xs : PyList)
  | dict (kvs : PyDict)
deriving DecidableEq, Repr
/-- A Python list of `PyValue`s. -/
inductive PyList where
  | nil
  | cons (hd : PyValue) (tl : PyList)
deriving DecidableEq, Repr
/-- A Python dict with string keys, in insertion order. -/
inductive PyDict where
  | nil
  | cons (key : String) (val : PyValue) (tl : PyDict)
deriving DecidableEq, Repr
end

deriving instance DecidableEq for Except

/-- Convert a Lean list to a `PyList` (used to write literals). -/
def PyList.ofList : List PyValue → PyList
  | [] => .nil
  | x :: xs => .cons x (PyList.ofList xs)

/-- Convert a `PyList` back to a Lean list. -/
def PyList.toList : PyList → List PyValue
  | .nil => []
  | .cons x xs => x :: PyList.toList xs

/-- Length of a `PyList`. -/
def PyList.length : PyList → Nat
  | .nil => 0
  | .cons _ xs => 1 + PyList.length xs

/-- Concatenation of `PyList`s (Python `list + list`). -/
def PyList.append : PyList → PyList → PyList
  | .nil, ys => ys
  | .cons x xs, ys => .cons x (PyList.append xs ys)

/-- Convert a Lean association list to a `PyDict` (used to write literals). -/
def PyDict.ofPairs : List (String × PyValue) → PyDict
  | [] => .nil
  | (k, v) :: kvs => .cons k v (PyDict.ofPairs kvs)

/-- Number of entries of a `PyDict`. -/
def PyDict.length : PyDict → Nat
  | .nil => 0
  | .cons _ _ kvs => 1 + PyDict.length kvs

/-- Look up a key in a `PyDict` (first match; keys are unique by construction). -/
def dictFind : PyDict → String → Option PyValue
  | .nil, _ => Option.none
  | .cons k v kvs, key => if k = key then some v else dictFind kvs key

/-- List of keys of a `PyDict`, in insertion order. -/
def PyDict.keys : PyDict → List String
  | .nil => []
  | .cons k _ kvs => k :: PyDict.keys kvs

/-- CPython dict insertion: an existing key keeps its position and gets the new
value, a fresh key is appended at the end. -/
def dictInsertV : PyDict → String → PyValue → PyDict
  | .nil, k, v => .cons k v .nil
  | .cons k' v' kvs, k, v =>
    if k' = k then .cons k' v kvs else .cons k' v' (dictInsertV kvs k v)

/-- Shorthand for a `PyValue` list literal. -/
def pyList (xs : List PyValue) : PyValue := .list (PyList.ofList xs)

/-- Shorthand for a `PyValue` dict literal. -/
def pyDict (kvs : List (String × PyValue)) : PyValue := .dict (PyDict.ofPairs kvs)

/-- Python truthiness (`bool(x)`): `None`, `False`, zero, empty string/list/dict
are falsy, everything else truthy. -/
def pyTruthy : PyValue → Bool
  | .none => false
  | .bool b => b
  | .int n => n != 0
  | .float q => q != 0
  | .str s => s != ""
  | .list .nil => false
  | .list (.cons _ _) => true
  | .dict .nil => false
  | .dict (.cons _ _ _) => true

/-- The numeric value of a Python number, if the value is numeric
(`bool` counts as a number in Python: `True == 1`). -/
def pyNumVal : PyValue → Option Rat
  | .bool b => some (if b then 1 else 0)
  | .int n => some (n : Rat)
  | .float q => some q
  | _ => Option.none

mutual
/-- Python `==` on modelled values: numbers compare by value across
`bool`/`int`/`float`; lists compare elementwise; dicts compare as unordered
key-value maps; different (non-numeric) types are unequal. -/
def pyEq : PyValue → PyValue → Bool
  | .str a, .str b => a == b
  | .none, .none => true
  | .list a, .list b => pyEqL a b
  | .dict a, .dict b => PyDict.length a == PyDict.length b && pyEqDSub a b
  | a, b =>
    match pyNumVal a, pyNumVal b with
    | some x, some y => x == y
    | _, _ => false
/-- Elementwise equality of `PyList`s. -/
def pyEqL : PyList → PyList → Bool
  | .nil, .nil => true
  | .cons x xs, .cons y ys => pyEq x y && pyEqL xs ys
  | _, _ => false
/-- Each entry of the first dict is present (by `pyEq`) in the second. -/
def pyEqDSub : PyDict → PyDict → Bool
  | .nil, _ => true
  | .cons k v kvs, d =>
    (match dictFind d k with
     | some w => pyEq v w
     | Option.none => false) && pyEqDSub kvs d
end

/-- Lowercase hex digit for a value `< 16`. -/
def hexDigitChar (n : Nat) : Char :=
  if n < 10 then Char.ofNat (48 + n) else Char.ofNat (87 + n)

/-- Python `repr` escaping of one character inside a quoted string literal. -/
def escapeChars (q : Char) : List Char → List Char
  | [] => []
  | c :: rest =>
    let n := c.toNat
    let enc :=
      if c == bslash then [bslash, bslash]
      else if c == q then [bslash, q]
      else if n == 10 then [bslash, Char.ofNat 110]
      else if n == 13 then [bslash, Char.ofNat 114]
      else if n == 9 then [bslash, Char.ofNat 116]
      else if n < 32 || n == 127 then [bslash, Char.ofNat 120, hexDigitChar (n / 16), hexDigitChar (n % 16)]
      else [c]
    enc ++ escapeChars q rest

/-- Python `repr` of a `str`: prefers single quotes, switches to double quotes
when the text contains a single quote but no double quote.  (Unicode
printability classification for characters `≥ 0x80` is not modelled: they are
kept verbatim, matching CPython for printable text.) -/
def reprStr (s : String) : String :=
  let hasS := s.data.contains squote
  let hasD := s.data.contains dquote
  let q := if hasS && !hasD then dquote else squote
  String.mk (q :: (escapeChars q s.data ++ [q]))

/-- Decimal rendering of an `Int` (Python `str(int)`). -/
def intStr (n : Int) : String := toString n

/-- Auxiliary: smallest exponent `k ≥ 1` with `q * 10^k` integral, searching up
to the given fuel. -/
def floatExpAux (q : Rat) : Nat → Nat → Option Nat
  | _, 0 => Option.none
  | k, f + 1 => if (q * (10 : Rat) ^ k).den = 1 then some k else floatExpAux q (k + 1) f

/-- Python `str(float)`, modelled for floats whose exact value is a decimal
fraction (the only floats the pipeline ever renders): renders the exact decimal
expansion with the shortest fraction part.  Full shortest-roundtrip binary
float formatting is not modelled. -/
def floatStr (q : Rat) : String :=
  if q.den = 1 then intStr q.num ++ ".0"
  else
    match floatExpAux q 1 17 with
    | some k =>
      let n := (q * (10 : Rat) ^ k).num
      let sign := if n < 0 then "-" else ""
      let digits := toString n.natAbs
      let padded := String.mk (List.replicate (k + 1 - digits.length) (Char.ofNat 48)) ++ digits
      let cut := padded.length - k
      sign ++ String.mk (padded.data.take cut) ++ "." ++ String.mk (padded.data.drop cut)
    | Option.none => intStr q.num ++ "/" ++ toString q.den

mutual
/-- Python `repr` of a modelled value; for containers this is also `str`. -/
def pyRepr : PyValue → String
  | .none => "None"
  | .bool b => if b then "True" else "False"
  | .int n => intStr n
  | .float q => floatStr q
  | .str s => reprStr s
  | .list xs => "[" ++ pyReprL xs ++ "]"
  | .dict kvs => String.mk [lbrace] ++ pyReprD kvs ++ String.mk [rbrace]
/-- Comma-separated reprs of list elements. -/
def pyReprL : PyList → String
  | .nil => ""
  | .cons x .nil => pyRepr x
  | .cons x (.cons y ys) => pyRepr x ++ ", " ++ pyReprL (.cons y ys)
/-- Comma-separated `key: value` reprs of dict entries. -/
def pyReprD : PyDict → String
  | .nil => ""
  | .cons k v .nil => reprStr k ++ ": " ++ pyRepr v
  | .cons k v (.cons k' v' kvs) => reprStr k ++ ": " ++ pyRepr v ++ ", " ++ pyReprD (.cons k' v' kvs)
end

/-- Python `str()` of a modelled value: a `str` renders as itself, everything
else as its `repr`. -/
def pyStr (v : PyValue) : String :=
  match v with
  | .str s => s
  | _ => pyRepr v

/-- Whether `pat` occurs at the start of `l`. -/
def startsWithChars : List Char → List Char → Bool
  | _, [] => true
  | [], _ :: _ => false
  | c :: cs, p :: ps => c == p && startsWithChars cs ps

/-- Auxiliary scan for substring containment. -/
def containsCharsAux (pat : List Char) : List Char → Bool
  | [] => startsWithChars [] pat
  | c :: cs => startsWithChars (c :: cs) pat || containsCharsAux pat cs

/-- Python `needle in haystack` on strings: substring containment
(the empty needle is contained in everything). -/
def strContains (haystack needle : String) : Bool :=
  containsCharsAux needle.data haystack.data

/-! ### SHA-256 and HMAC-SHA-256 over byte lists

A bit-faithful implementation of FIPS 180-4 SHA-256 and RFC 2104 HMAC on
`List Nat` bytes, with 32-bit words as `Nat` masked to 32 bits. -/

/-- All-ones 32-bit mask. -/
def mask32 : Nat := 4294967295

/-- 32-bit modular addition. -/
def add32 (a b : Nat) : Nat := (a + b) &&& mask32

/-- 32-bit right rotation. -/
def rotr32 (x n : Nat) : Nat := ((x >>> n) ||| (x <<< (32 - n))) &&& mask32

/-- SHA-256 big sigma 0. -/
def bigSigma0 (x : Nat) : Nat := (rotr32 x 2) ^^^ (rotr32 x 13) ^^^ (rotr32 x 22)

/-- SHA-256 big sigma 1. -/
def bigSigma1 (x : Nat) : Nat := (rotr32 x 6) ^^^ (rotr32 x 11) ^^^ (rotr32 x 25)

/-- SHA-256 small sigma 0. -/
def smallSigma0 (x : Nat) : Nat := (rotr32 x 7) ^^^ (rotr32 x 18) ^^^ (x >>> 3)

/-- SHA-256 small sigma 1. -/
def smallSigma1 (x : Nat) : Nat := (rotr32 x 17) ^^^ (rotr32 x 19) ^^^ (x >>> 10)

/-- SHA-256 choice function. -/
def chFn (x y z : Nat) : Nat := (x &&& y) ^^^ ((x ^^^ mask32) &&& z)

/-- SHA-256 majority function. -/
def majFn (x y z : Nat) : Nat := (x &&& y) ^^^ (x &&& z) ^^^ (y &&& z)

/-- The 64 SHA-256 round constants (FIPS 180-4, written in decimal). -/
def sha256K : List Nat :=
  [1116352408, 1899447441, 3049323471, 3921009573, 961987163, 1508970993,
   2453635748, 2870763221, 3624381080, 310598401, 607225278, 1426881987,
   1925078388, 2162078206, 2614888103, 3248222580, 3835390401, 4022224774,
   264347078, 604807628, 770255983, 1249150122, 1555081692, 1996064986,
   2554220882, 2821834349, 2952996808, 3210313671, 3336571891, 3584528711,
   113926993, 338241895, 666307205, 773529912, 1294757372, 1396182291,
   1695183700, 1986661051, 2177026350, 2456956037, 2730485921, 2820302411,
   3259730800, 3345764771, 3516065817, 3600352804, 4094571909, 275423344,
   430227734, 506948616, 659060556, 883997877, 958139571, 1322822218,
   1537002063, 1747873779, 1955562222, 2024104815, 2227730452, 2361852424,
   2428436474, 2756734187, 3204031479, 3329325298]

/-- Read a big-endian 32-bit word from the first four bytes. -/
def word32At (bytes : List Nat) : Nat :=
  match bytes with
  | b0 :: b1 :: b2 :: b3 :: _ => (((b0 <<< 8 ||| b1) <<< 8 ||| b2) <<< 8) ||| b3
  | _ => 0

/-- Split a 64-byte block into sixteen 32-bit words. -/
def msgWords (fuel : Nat) (block : List Nat) : List Nat :=
  match fuel with
  | 0 => []
  | f + 1 => word32At block :: msgWords f (block.drop 4)

/-- Extend sixteen message-schedule words to sixty-four. -/
def extendWords (fuel : Nat) (acc : List Nat) : List Nat :=
  match fuel with
  | 0 => acc
  | f + 1 =>
    let n := acc.length
    let w15 := acc.getD (n - 15) 0
    let w2 := acc.getD (n - 2) 0
    let w16 := acc.getD (n - 16) 0
    let w7 := acc.getD (n - 7) 0
    extendWords f (acc ++ [(w16 + smallSigma0 w15 + w7 + smallSigma1 w2) &&& mask32])

/-- The eight 32-bit working variables of the SHA-256 state. -/
structure Digest8 where
  a : Nat
  b : Nat
  c : Nat
  d : Nat
  e : Nat
  f : Nat
  g : Nat
  h : Nat
deriving Repr, DecidableEq

/-- One SHA-256 compression round. -/
def compressStep (st : Digest8) (kw : Nat × Nat) : Digest8 :=
  let t1 := (st.h + bigSigma1 st.e + chFn st.e st.f st.g + kw.1 + kw.2) &&& mask32
  let t2 := (bigSigma0 st.a + majFn st.a st.b st.c) &&& mask32
  ⟨(t1 + t2) &&& mask32, st.a, st.b, st.c, (st.d + t1) &&& mask32, st.e, st.f, st.g⟩

/-- SHA-256 compression of a single 64-byte block. -/
def compressBlock (h : Digest8) (block : List Nat) : Digest8 :=
  let ws := extendWords 48 (msgWords 16 block)
  let st := (sha256K.zip ws).foldl compressStep h
  ⟨add32 st.a h.a, add32 st.b h.b, add32 st.c h.c, add32 st.d h.d,
   add32 st.e h.e, add32 st.f h.f, add32 st.g h.g, add32 st.h h.h⟩

/-- Chop a byte list into 64-byte blocks (fuel-driven structural recursion). -/
def toBlocks (fuel : Nat) (l : List Nat) : List (List Nat) :=
  match fuel with
  | 0 => []
  | f + 1 =>
    match l with
    | [] => []
    | _ => l.take 64 :: toBlocks f (l.drop 64)

/-- SHA-256 message padding: `0x80`, zeros, 64-bit big-endian bit length. -/
def sha256Pad (msg : List Nat) : List Nat :=
  let len := msg.length
  let bitLen := len * 8
  let padZeros := (55 + 64 - len % 64) % 64
  msg ++ [0x80] ++ List.replicate padZeros 0 ++
    [(bitLen >>> 56) &&& 255, (bitLen >>> 48) &&& 255, (bitLen >>> 40) &&& 255,
     (bitLen >>> 32) &&& 255, (bitLen >>> 24) &&& 255, (bitLen >>> 16) &&& 255,
     (bitLen >>> 8) &&& 255, bitLen &&& 255]

/-- Serialize the final state big-endian. -/
def digestToBytes (d : Digest8) : List Nat :=
  [d.a, d.b, d.c, d.d, d.e, d.f, d.g, d.h].foldr
    (fun w acc => ((w >>> 24) &&& 255) :: ((w >>> 16) &&& 255) :: ((w >>> 8) &&& 255) :: (w &&& 255) :: acc) []

/-- SHA-256 of a byte list. -/
def sha256Bytes (msg : List Nat) : List Nat :=
  let padded := sha256Pad msg
  let blocks := toBlocks (padded.length / 64 + 1) padded
  let h0 : Digest8 :=
    ⟨1779033703, 3144134277, 1013904242, 2773480762, 1359893119, 2600822924, 528734635, 1541459225⟩
  digestToBytes (blocks.foldl compressBlock h0)

/-- Lowercase hex string of a byte list (`hexdigest`). -/
def bytesToHex (bs : List Nat) : String :=
  String.mk (bs.foldr (fun b acc => hexDigitChar (b >>> 4) :: hexDigitChar (b &&& 15) :: acc) [])

/-- UTF-8 encoding of a string (Python `str.encode()`). -/
def strBytes (s : String) : List Nat :=
  s.data.foldr (fun c acc =>
    let n := c.toNat
    if n < 128 then n :: acc
    else if n < 2048 then (192 ||| (n >>> 6)) :: (128 ||| (n &&& 63)) :: acc
    else if n < 65536 then (224 ||| (n >>> 12)) :: (128 ||| ((n >>> 6) &&& 63)) :: (128 ||| (n &&& 63)) :: acc
    else (240 ||| (n >>> 18)) :: (128 ||| ((n >>> 12) &&& 63)) :: (128 ||| ((n >>> 6) &&& 63)) :: (128 ||| (n &&& 63)) :: acc) []

/-- SHA-256 hex digest of a string, `hashlib.sha256(s.encode()).hexdigest()`. -/
def sha256Hex (s : String) : String := bytesToHex (sha256Bytes (strBytes s))

/-- HMAC-SHA-256 (RFC 2104) over byte lists, returning the raw digest bytes. -/
def hmacSha256 (key msg : List Nat) : List Nat :=
  let k := if key.length > 64 then sha256Bytes key else key
  let k64 := k ++ List.replicate (64 - k.length) 0
  let ipad := k64.map (fun b => b ^^^ 0x36)
  let opad := k64.map (fun b => b ^^^ 0x5c)
  sha256Bytes (opad ++ sha256Bytes (ipad ++ msg))

/-! ### Query-string parsing (`urllib.parse.parse_qsl` with default arguments) -/

/-- Value of a hex digit character, if it is one. -/
def hexVal (c : Char) : Option Nat :=
  let n := c.toNat
  if 48 ≤ n ∧ n ≤ 57 then some (n - 48)
  else if 97 ≤ n ∧ n ≤ 102 then some (n - 87)
  else if 65 ≤ n ∧ n ≤ 70 then some (n - 55)
  else Option.none

/-- Percent-decoding (`urllib.parse.unquote`): `%XX` becomes the character with
that code; malformed escapes are kept verbatim.  Multi-byte UTF-8 sequences
spelled as several percent escapes are outside the modelled fragment (each byte
is decoded to its own code point). -/
def percentDecodeAux : Nat → List Char → List Char
  | 0, l => l
  | _ + 1, [] => []
  | f + 1, c :: rest =>
    if c == '%' then
      match rest with
      | h1 :: h2 :: rest' =>
        match hexVal h1, hexVal h2 with
        | some a, some b => Char.ofNat (16 * a + b) :: percentDecodeAux f rest'
        | _, _ => c :: percentDecodeAux f rest
      | _ => c :: percentDecodeAux f rest
    else c :: percentDecodeAux f rest

/-- Percent-decode a character list (fuel instantiated to the length). -/
def percentDecodeChars (l : List Char) : List Char := percentDecodeAux l.length l

/-- `+` means space in query strings (applied before percent-decoding). -/
def plusToSpace (l : List Char) : List Char :=
  l.map (fun c => if c == '+' then ' ' else c)

/-- Split a character list on a separator character, keeping empty groups. -/
def splitOnChar (sep : Char) : List Char → List (List Char)
  | [] => [[]]
  | c :: rest =>
    if c == sep then [] :: splitOnChar sep rest
    else
      match splitOnChar sep rest with
      | g :: gs => (c :: g) :: gs
      | [] => [[c]]

/-- Split a `key=value` pair at the first `=`, if any. -/
def splitFirstEq : List Char → Option (List Char × List Char)
  | [] => Option.none
  | c :: rest =>
    if c == '=' then some ([], rest)
    else
      match splitFirstEq rest with
      | some (a, b) => some (c :: a, b)
      | Option.none => Option.none

/-- `urllib.parse.parse_qsl` with default arguments: split on `&`, drop empty
chunks, drop chunks without `=`, drop pairs with an empty value
(`keep_blank_values=False`), then `+`-to-space and percent-decode each side. -/
def parseQsl (qs : String) : List (String × String) :=
  (splitOnChar '&' qs.data).filterMap (fun pair =>
    if pair.isEmpty then Option.none
    else
      match splitFirstEq pair with
      | Option.none => Option.none
      | some (nm, vl) =>
        if vl.isEmpty then Option.none
        else some (String.mk (percentDecodeChars (plusToSpace nm)),
                   String.mk (percentDecodeChars (plusToSpace vl))))

/-- CPython dict insertion for string-valued association lists: an existing key
keeps its position and gets the new value, a fresh key is appended. -/
def insertAssoc : List (String × String) → String → String → List (String × String)
  | [], k, v => [(k, v)]
  | (k', v') :: rest, k, v =>
    if k' = k then (k', v) :: rest else (k', v') :: insertAssoc rest k v

/-- `dict(pairs)`: fold the pairs into an association list, last value wins. -/
def dictOfPairs (ps : List (String × String)) : List (String × String) :=
  ps.foldl (fun m kv => insertAssoc m kv.1 kv.2) []

/-- Association-list lookup. -/
def assocFind : List (String × String) → String → Option String
  | [], _ => Option.none
  | (k, v) :: rest, key => if k = key then some v else assocFind rest key

/-- Association-list lookup with default (`dict.get(key, dflt)`). -/
def assocGetD (m : List (String × String)) (key dflt : String) : String :=
  (assocFind m key).getD dflt

/-- Lexicographic comparison of character lists by code point. -/
def charListLt : List Char → List Char → Bool
  | [], [] => false
  | [], _ :: _ => true
  | _ :: _, [] => false
  | a :: as, b :: bs => a.toNat < b.toNat || (a.toNat == b.toNat && charListLt as bs)

/-- Python `str <`: lexicographic on code points. -/
def strLtB (a b : String) : Bool := charListLt a.data b.data

/-- Insert a pair into a key-sorted list. -/
def insertSorted (p : String × String) : List (String × String) → List (String × String)
  | [] => [p]
  | q :: rest => if strLtB p.1 q.1 then p :: q :: rest else q :: insertSorted p rest

/-- `sorted(d.items())` for a dict (keys are unique, so key order decides). -/
def sortPairs (ps : List (String × String)) : List (String × String) :=
  ps.foldr insertSorted []

/-- Join strings with newline separators, no trailing newline. -/
def joinLines : List String → String
  | [] => ""
  | [x] => x
  | x :: y :: rest => x ++ "\n" ++ joinLines (y :: rest)

/-! ### JSON parsing (`json.loads` on the modelled fragment)

Strings (with escapes; unpaired `\uXXXX` surrogates are outside the modelled
fragment), numbers (ints exactly; floats as exact rationals), `true`, `false`,
`null`, arrays, objects (duplicate keys: last value wins).  The `NaN` /
`Infinity` extensions accepted by CPython are outside the modelled fragment. -/

/-- JSON whitespace. -/
def jsonWs (c : Char) : Bool :=
  c == ' ' || c.toNat == 9 || c.toNat == 10 || c.toNat == 13

/-- Drop leading JSON whitespace. -/
def skipWs : List Char → List Char
  | [] => []
  | c :: rest => if jsonWs c then skipWs rest else c :: rest

/-- Value of a decimal digit character, if it is one. -/
def digVal (c : Char) : Option Nat :=
  if 48 ≤ c.toNat ∧ c.toNat ≤ 57 then some (c.toNat - 48) else Option.none

/-- Take a maximal run of decimal digits. -/
def takeDigits : List Char → (List Nat × List Char)
  | [] => ([], [])
  | c :: rest =>
    match digVal c with
    | some d =>
      let p := takeDigits rest
      (d :: p.1, p.2)
    | Option.none => ([], c :: rest)

/-- Decimal digits to a natural number. -/
def digitsToNat (ds : List Nat) : Nat := ds.foldl (fun a d => 10 * a + d) 0

/-- Parse the body of a JSON string after the opening quote; returns content
and remainder after the closing quote. -/
def parseJsonString : Nat → List Char → Option (List Char × List Char)
  | 0, _ => Option.none
  | _ + 1, [] => Option.none
  | f + 1, c :: rest =>
    if c == dquote then some ([], rest)
    else if c == bslash then
      match rest with
      | [] => Option.none
      | e :: rest' =>
        let cont := fun (ch : Char) (l : List Char) =>
          match parseJsonString f l with
          | some (content, rem) => some (ch :: content, rem)
          | Option.none => Option.none
        if e == dquote then cont dquote rest'
        else if e == bslash then cont bslash rest'
        else if e == '/' then cont '/' rest'
        else if e == 'b' then cont (Char.ofNat 8) rest'
        else if e == 'f' then cont (Char.ofNat 12) rest'
        else if e == 'n' then cont (Char.ofNat 10) rest'
        else if e == 'r' then cont (Char.ofNat 13) rest'
        else if e == 't' then cont (Char.ofNat 9) rest'
        else if e == 'u' then
          match rest' with
          | h1 :: h2 :: h3 :: h4 :: rest'' =>
            match hexVal h1, hexVal h2, hexVal h3, hexVal h4 with
            | some a, some b, some c3, some d4 => cont (Char.ofNat (4096 * a + 256 * b + 16 * c3 + d4)) rest''
            | _, _, _, _ => Option.none
          | _ => Option.none
        else Option.none
    else if c.toNat < 32 then Option.none
    else
      match parseJsonString f rest with
      | some (content, rem) => some (c :: content, rem)
      | Option.none => Option.none

/-- Fold parsed object pairs into a `PyDict` with CPython insert semantics
(first position, last value). -/
def mergeObject (base : PyDict) (kvs : List (String × PyValue)) : PyDict :=
  kvs.foldl (fun d kv => dictInsertV d kv.1 kv.2) base

/-- Parse a JSON number (int if it has no fraction and no exponent, float
otherwise; floats are the exact rational value of the literal). -/
def parseJsonNumber (l : List Char) : Option (PyValue × List Char) :=
  let p := match l with
    | c :: rest => if c == '-' then (true, rest) else (false, l)
    | [] => (false, l)
  let neg := p.1
  match takeDigits p.2 with
  | ([], _) => Option.none
  | (d :: ds, l2) =>
    if d = 0 ∧ ds ≠ [] then Option.none
    else
      let ipart : Nat := digitsToNat (d :: ds)
      let fracP : Option (List Nat × List Char) :=
        match l2 with
        | c :: rest =>
          if c == '.' then
            match takeDigits rest with
            | ([], _) => Option.none
            | (fs, l3) => some (fs, l3)
          else some ([], l2)
        | [] => some ([], l2)
      match fracP with
      | Option.none => Option.none
      | some (fs, l3) =>
        let expP : Option (Option Int × List Char) :=
          match l3 with
          | c :: rest =>
            if c == 'e' || c == 'E' then
              let q := match rest with
                | c2 :: rest2 =>
                  if c2 == '-' then (true, rest2)
                  else if c2 == '+' then (false, rest2)
                  else (false, rest)
                | [] => (false, rest)
              match takeDigits q.2 with
              | ([], _) => Option.none
              | (es, l4) =>
                let e : Int := digitsToNat es
                some (some (if q.1 then -e else e), l4)
            else some (Option.none, l3)
          | [] => some (Option.none, l3)
        match expP with
        | Option.none => Option.none
        | some (eo, l5) =>
          if fs = [] ∧ eo = Option.none then
            some (.int (if neg then -(ipart : Int) else (ipart : Int)), l5)
          else
            let base : Rat := (ipart : Rat) + (digitsToNat fs : Rat) / (10 : Rat) ^ fs.length
            let scaled : Rat := base * (10 : Rat) ^ (eo.getD 0)
            some (.float (if neg then -scaled else scaled), l5)

mutual
/-- Parse one JSON value (fuel-driven; the fuel exceeds the input length at
every call site, so well-formed input never exhausts it). -/
def parseJsonValue : Nat → List Char → Option (PyValue × List Char)
  | 0, _ => Option.none
  | f + 1, l =>
    let l := skipWs l
    match l with
    | [] => Option.none
    | c :: rest =>
      if c == dquote then
        match parseJsonString (f + 1) rest with
        | some (content, rem) => some (.str (String.mk content), rem)
        | Option.none => Option.none
      else if c == '[' then parseJsonArray f rest
      else if c == lbrace then parseJsonObject f rest
      else if startsWithChars l ['n', 'u', 'l', 'l'] then some (.none, l.drop 4)
      else if startsWithChars l ['t', 'r', 'u', 'e'] then some (.bool true, l.drop 4)
      else if startsWithChars l ['f', 'a', 'l', 's', 'e'] then some (.bool false, l.drop 5)
      else parseJsonNumber l
/-- Parse the inside of a JSON array, after the opening bracket. -/
def parseJsonArray : Nat → List Char → Option (PyValue × List Char)
  | 0, _ => Option.none
  | f + 1, l =>
    let l := skipWs l
    match l with
    | [] => Option.none
    | c :: rest =>
      if c == ']' then some (pyList [], rest)
      else
        match parseJsonValue f l with
        | some (v, rem) =>
          match parseJsonArrayTail f rem with
          | some (xs, rem') => some (.list (.cons v xs), rem')
          | Option.none => Option.none
        | Option.none => Option.none
/-- Parse `, value`* `]`. -/
def parseJsonArrayTail : Nat → List Char → Option (PyList × List Char)
  | 0, _ => Option.none
  | f + 1, l =>
    let l := skipWs l
    match l with
    | [] => Option.none
    | c :: rest =>
      if c == ',' then
        match parseJsonValue f rest with
        | some (v, rem) =>
          match parseJsonArrayTail f rem with
          | some (xs, rem') => some (.cons v xs, rem')
          | Option.none => Option.none
        | Option.none => Option.none
      else if c == ']' then some (.nil, rest)
      else Option.none
/-- Parse the inside of a JSON object, after the opening brace. -/
def parseJsonObject : Nat → List Char → Option (PyValue × List Char)
  | 0, _ => Option.none
  | f + 1, l =>
    let l := skipWs l
    match l with
    | [] => Option.none
    | c :: rest =>
      if c == rbrace then some (pyDict [], rest)
      else if c == dquote then
        match parseJsonString (f + 1) rest with
        | some (key, rem) =>
          match skipWs rem with
          | c2 :: rem2 =>
            if c2 == ':' then
              match parseJsonValue f rem2 with
              | some (v, rem3) =>
                match parseJsonObjectTail f rem3 with
                | some (kvs, rem4) => some (.dict (mergeObject (dictInsertV .nil (String.mk key) v) kvs), rem4)
                | Option.none => Option.none
              | Option.none => Option.none
            else Option.none
          | [] => Option.none
        | Option.none => Option.none
      else Option.none
/-- Parse `, "key": value`* followed by the closing brace, as a pair list. -/
def parseJsonObjectTail : Nat → List Char → Option (List (String × PyValue) × List Char)
  | 0, _ => Option.none
  | f + 1, l =>
    let l := skipWs l
    match l with
    | [] => Option.none
    | c :: rest =>
      if c == rbrace then some ([], rest)
      else if c == ',' then
        match skipWs rest with
        | c2 :: rem =>
          if c2 == dquote then
            match parseJsonString (f + 1) rem with
            | some (key, rem2) =>
              match skipWs rem2 with
              | c3 :: rem3 =>
                if c3 == ':' then
                  match parseJsonValue f rem3 with
                  | some (v, rem4) =>
                    match parseJsonObjectTail f rem4 with
                    | some (kvs, rem5) => some ((String.mk key, v) :: kvs, rem5)
                    | Option.none => Option.none
                  | Option.none => Option.none
                else Option.none
              | [] => Option.none
            | Option.none => Option.none
          else Option.none
        | [] => Option.none
      else Option.none
end

/-- `json.loads`: parse one value, allow trailing whitespace only. -/
def jsonLoads (s : String) : Option PyValue :=
  match parseJsonValue (s.length + 8) s.data with
  | some (v, rem) => if skipWs rem = [] then some v else Option.none
  | Option.none => Option.none

/-! ### `datetime.strptime(s, "%Y-%m-%dT%H:%M:%S")`

CPython compiles the format to a regular expression (`%Y` is four digits, the
other fields are one or two digits restricted to their value range) and then
validates the calendar via the `datetime` constructor (year at least 1, day at
most the month length).  The result is modelled as seconds since the proleptic
Gregorian epoch; only differences of these values are ever used. -/

/-- Parse exactly four decimal digits. -/
def parse4Digits : List Char → Option (Nat × List Char)
  | a :: b :: c :: d :: rest =>
    match digVal a, digVal b, digVal c, digVal d with
    | some w, some x, some y, some z => some (1000 * w + 100 * x + 10 * y + z, rest)
    | _, _, _, _ => Option.none
  | _ => Option.none

/-- Parse one or two digits, preferring two, mirroring the ordered regex
alternation CPython uses for `%m`, `%d`, `%H`, `%M`, `%S`. -/
def parse2Or1 (ok2 : Nat → Nat → Bool) (ok1 : Nat → Bool) : List Char → Option (Nat × List Char)
  | c1 :: c2 :: rest =>
    match digVal c1, digVal c2 with
    | some d1, some d2 =>
      if ok2 d1 d2 then some (10 * d1 + d2, rest)
      else if ok1 d1 then some (d1, c2 :: rest)
      else Option.none
    | some d1, Option.none =>
      if ok1 d1 then some (d1, c2 :: rest) else Option.none
    | _, _ => Option.none
  | [c1] =>
    match digVal c1 with
    | some d1 => if ok1 d1 then some (d1, []) else Option.none
    | Option.none => Option.none
  | [] => Option.none

/-- Expect a literal character. -/
def expectChar (c : Char) : List Char → Option (List Char)
  | [] => Option.none
  | x :: rest => if x == c then some rest else Option.none

/-- Gregorian leap year. -/
def isLeapYear (y : Nat) : Bool :=
  y % 4 = 0 ∧ (y % 100 ≠ 0 ∨ y % 400 = 0)

/-- Days in a month of a given year. -/
def daysInMonth (y m : Nat) : Nat :=
  if m = 2 then (if isLeapYear y then 29 else 28)
  else if m = 4 ∨ m = 6 ∨ m = 9 ∨ m = 11 then 30
  else 31

/-- Days in the months before month `m` of a common year. -/
def daysBeforeMonth (m : Nat) : Nat :=
  [0, 0, 31, 59, 90, 120, 151, 181, 212, 243, 273, 304, 334].getD m 0

/-- Seconds since the proleptic Gregorian epoch (January 1 of year 1). -/
def civilSeconds (y m d hh mm ss : Nat) : Int :=
  let yd := y - 1
  let daysBeforeY := 365 * yd + (yd / 4 + yd / 400) - yd / 100
  let leapAdj := if 2 < m ∧ isLeapYear y then 1 else 0
  let days := daysBeforeY + daysBeforeMonth m + leapAdj + (d - 1)
  ((days * 86400 + hh * 3600 + mm * 60 + ss : Nat) : Int)

/-- `datetime.strptime(s, "%Y-%m-%dT%H:%M:%S")`, as seconds since the epoch;
`Option.none` models the `ValueError` that `calc_quality` catches. -/
def parseDateTime (s : String) : Option Int := do
  let (y, r1) ← parse4Digits s.data
  let r2 ← expectChar '-' r1
  let (m, r3) ← parse2Or1 (fun d1 d2 => (d1 = 1 ∧ d2 ≤ 2) ∨ (d1 = 0 ∧ 1 ≤ d2)) (fun d => 1 ≤ d) r2
  let r4 ← expectChar '-' r3
  let (d, r5) ← parse2Or1
    (fun d1 d2 => (d1 = 3 ∧ d2 ≤ 1) ∨ d1 = 1 ∨ d1 = 2 ∨ (d1 = 0 ∧ 1 ≤ d2)) (fun x => 1 ≤ x) r4
  let r6 ← expectChar 'T' r5
  let (hh, r7) ← parse2Or1 (fun d1 d2 => (d1 = 2 ∧ d2 ≤ 3) ∨ d1 ≤ 1) (fun _ => true) r6
  let r8 ← expectChar ':' r7
  let (mm, r9) ← parse2Or1 (fun d1 _ => d1 ≤ 5) (fun _ => true) r8
  let r10 ← expectChar ':' r9
  let (ss, r11) ← parse2Or1 (fun d1 _ => d1 ≤ 5) (fun _ => true) r10
  if r11 = [] ∧ 1 ≤ y ∧ d ≤ daysInMonth y m then
    some (civilSeconds y m d hh mm ss)
  else
    Option.none

/-! ### Python `round(x, 3)` on exact rationals -/

/-- Round a rational to the nearest integer, ties to even (Python `round`). -/
def roundHalfEven (q : Rat) : Int :=
  let f := ⌊q⌋
  let frac := q - (f : Rat)
  if frac < 1 / 2 then f
  else if 1 / 2 < frac then f + 1
  else if f % 2 = 0 then f else f + 1

/-- Python `round(x, 3)` modelled exactly on rationals. -/
def pyRound3 (q : Rat) : Rat := ((roundHalfEven (q * 1000) : Rat)) / 1000

/-! ### Python container primitives used by `proof.py` -/

/-- `v.get(k, dflt)`: only dicts have `.get`; anything else raises
`AttributeError`. -/
def pyGet (v : PyValue) (k : String) (dflt : PyValue) : Except String PyValue :=
  match v with
  | .dict d => .ok ((dictFind d k).getD dflt)
  | _ => .error "AttributeError: object has no attribute get"

/-- `len(v)`: defined for lists, strings and dicts, `TypeError` otherwise. -/
def pyLen (v : PyValue) : Except String Nat :=
  match v with
  | .list xs => .ok xs.length
  | .str s => .ok s.length
  | .dict d => .ok d.length
  | _ => .error "TypeError: object has no len"

/-- `for x in v`: lists yield elements, strings yield one-character strings,
dicts yield their keys; anything else raises `TypeError`. -/
def pyIterate (v : PyValue) : Except String (List PyValue)  :=
  match v with
  | .list xs => .ok xs.toList
  | .str s => .ok (s.data.map (fun c => PyValue.str (String.mk [c])))
  | .dict d => .ok (d.keys.map PyValue.str)
  | _ => .error "TypeError: object is not iterable"

/-- Python list membership: `==` against each element. -/
def listMemPy (x : PyValue) : PyList → Bool
  | .nil => false
  | .cons y ys => pyEq x y || listMemPy x ys

/-- `x in v` for lists (elementwise `==`), strings (substring; the needle must
itself be a string) and dicts (key membership); `TypeError` otherwise. -/
def pyIn (needle v : PyValue) : Except String Bool :=
  match v with
  | .list xs => .ok (listMemPy needle xs)
  | .str s =>
    match needle with
    | .str n => .ok (strContains s n)
    | _ => .error "TypeError: in string requires string as left operand"
  | .dict d =>
    match needle with
    | .str n => .ok (d.keys.contains n)
    | _ => .ok false
  | _ => .error "TypeError: argument is not iterable"

/-! ### `FilebaseService` (`my_proof/filebase_service.py`)

The remote store holds one JSON document under the fixed key
`hash_list.json`; it is modelled at JSON-value level together with the two
failure shapes the S3 client can report: a never-written key (`NoSuchKey`)
and any other transport or store failure. -/

/-- The state of the remote registry object. -/
inductive S3Object where
  | missing
  | failure (msg : String)
  | doc (v : PyValue)
deriving DecidableEq, Repr

/-- `s3_client.get_object`: a never-written key raises `NoSuchKey`, a
transport failure raises its own error, otherwise the stored document is
returned. -/
def s3GetObject : S3Object → Except String PyValue
  | .missing => .error "NoSuchKey"
  | .failure msg => .error msg
  | .doc v => .ok v

/-- `FilebaseService.generate_hash`: `hashlib.sha256(str(input).encode()).hexdigest()`. -/
def generate_hash (input : PyValue) : String := sha256Hex (pyStr input)

/-- `FilebaseService.get_hash_list`: fetch the document, read
`data.get('hash_list', [])`; the `try/except` re-raises every exception after
logging it, so all failures propagate. -/
def get_hash_list (store : S3Object) : Except String PyValue := do
  let v ← s3GetObject store
  match v with
  | .dict d => .ok ((dictFind d "hash_list").getD (pyList []))
  | _ => .error "AttributeError: object has no attribute get"

/-- `FilebaseService.update_hash_list`: overwrite the stored document with
`data = oldListPlusNew` where the new document maps `hash_list` to
`existing + [new_hash]`. -/
def update_hash_list (existing : PyList) (new_hash : String) : S3Object :=
  .doc (pyDict [("hash_list", .list (existing.append (.cons (.str new_hash) .nil)))])

/-! ### `Proof` (`my_proof/proof.py`) -/

/-- The per-run configuration assembled by `load_config` in `__main__.py`:
the fields `calc_ownership` and `generate` read.  Environment variables can be
absent, hence the `Option`s. -/
structure Config where
  dlp_id : Int
  tg_init_data : Option String
  telegram_bot_access_key : Option String
  allow_reuse : Option String
deriving DecidableEq, Repr

/-- The `stats` dictionary of `calc_quality`. -/
structure Stats where
  total_messages : Nat
  empty_messages : Nat
  invalid_dates : Nat
  large_gaps : Nat
  replies : Nat
deriving DecidableEq, Repr

/-- The `scores` dictionary of `calc_quality` (values before rounding live in
the same structure after `pyRound3`). -/
structure ComponentScores where
  content : Rat
  time : Rat
  interaction : Rat
deriving DecidableEq, Repr

/-- The dictionary `calc_quality` returns. -/
structure QualityData where
  quality_score : Rat
  component_scores : ComponentScores
  stats : Stats
deriving DecidableEq, Repr

/-- The first two checks of the message loop: `empty_messages` increments when
`msg.get("text")` is falsy, `replies` increments when
`msg.get("reply_to_message_id")` is truthy. -/
def msgStep (d : PyDict) (st : Stats) : Stats :=
  let st1 :=
    if pyTruthy ((dictFind d "text").getD .none) then st
    else { st with empty_messages := st.empty_messages + 1 }
  if pyTruthy ((dictFind d "reply_to_message_id").getD .none) then
    { st1 with replies := st1.replies + 1 }
  else st1

/-- The large-gap check: a successfully parsed date following a previously
parsed one more than 86400 seconds earlier counts a large gap. -/
def gapStep (prev : Option Int) (cur : Int) (st : Stats) : Stats :=
  match prev with
  | some p => if 86400 < cur - p then { st with large_gaps := st.large_gaps + 1 } else st
  | Option.none => st

/-- The guarded date parse: `msg["date"]` must exist, be a string and parse
with the fixed format, otherwise the whole `try` body fails. -/
def msgDate (d : PyDict) : Option Int :=
  match dictFind d "date" with
  | some (.str s) => parseDateTime s
  | _ => Option.none

/-- One pass of the message loop in `calc_quality`: empty-text check, reply
check, then the guarded date parse (parse failure counts an invalid date and
leaves the previous-date cursor unchanged; a parsed date runs the gap check
and becomes the new cursor).  A non-dict message raises. -/
def scanMessages : List PyValue → Option Int → Stats → Except String Stats
  | [], _, st => .ok st
  | msg :: rest, prev, st =>
    match msg with
    | .dict d =>
      match msgDate d with
      | some cur => scanMessages rest (some cur) (gapStep prev cur (msgStep d st))
      | Option.none =>
        scanMessages rest prev
          { msgStep d st with invalid_dates := (msgStep d st).invalid_dates + 1 }
    | _ => .error "AttributeError: message is not a dict"

/-- `Proof.calc_quality`: per-message statistics, component scores (all three
zero when there are no messages), and the weighted overall quality, every
reported number rounded to three decimals. -/
def calc_quality (input : PyValue) : Except String QualityData := do
  let msgsVal ← pyGet input "messages" (pyList [])
  let total ← pyLen msgsVal
  let elems ← pyIterate msgsVal
  let stats ← scanMessages elems Option.none ⟨total, 0, 0, 0, 0⟩
  let scores : ComponentScores :=
    if stats.total_messages = 0 then ⟨0, 0, 0⟩
    else
      ⟨1 - (stats.empty_messages : Rat) / (stats.total_messages : Rat),
       1 - min 1 ((stats.large_gaps : Rat) * 0.1 + (stats.invalid_dates : Rat) / (stats.total_messages : Rat)),
       min 1 ((stats.replies : Rat) / ((stats.total_messages : Rat) * 0.3))⟩
  let quality_score := scores.content * 0.8 + scores.time * 0.1 + scores.interaction * 0.1
  .ok ⟨pyRound3 quality_score, ⟨pyRound3 scores.content, pyRound3 scores.time, pyRound3 scores.interaction⟩, stats⟩

/-- `Proof.calc_authenticity`: 1.0 exactly for `type` equal to
`personal_chat` or `ai_chat` (default empty string), else 0.0. -/
def calc_authenticity (input : PyValue) : Except String Rat := do
  let chat_type ← pyGet input "type" (.str "")
  .ok (if pyEq chat_type (.str "personal_chat") || pyEq chat_type (.str "ai_chat") then 1 else 0)

/-- The `data_check_string` of `calc_ownership`: remaining pairs sorted by
key, joined as `key=value` lines. -/
def tgCheckString (parsed_data : List (String × String)) : String :=
  joinLines (((sortPairs parsed_data).filter (fun kv => kv.1 ≠ "hash")).map
    (fun kv => kv.1 ++ "=" ++ kv.2))

/-- The hex digest `calc_ownership` computes: HMAC-SHA-256 keyed by
HMAC-SHA-256("WebAppData", bot key), applied to the check string. -/
def tgComputedHash (botKey checkString : String) : String :=
  bytesToHex (hmacSha256 (hmacSha256 (strBytes "WebAppData") (strBytes botKey)) (strBytes checkString))

/-- `Proof.calc_ownership`.  A missing `TELEGRAM_INIT_DATA` reaches
`parse_qsl(None)`, which returns the empty pair list; a missing bot access key
raises (`None.encode()`); a verified hash with a truthy `user` value that is
not valid JSON raises in `json.loads`; a verified hash whose `user` JSON is
not an object raises in `.get`. -/
def calc_ownership (cfg : Config) (input : PyValue) : Except String Rat :=
  let parsed_data := dictOfPairs (match cfg.tg_init_data with
    | some s => parseQsl s
    | Option.none => [])
  let data_check_string := tgCheckString parsed_data
  match cfg.telegram_bot_access_key with
  | Option.none => .error "AttributeError: NoneType has no attribute encode"
  | some botKey =>
    let h := tgComputedHash botKey data_check_string
    if h = assocGetD parsed_data "hash" "" then
      match assocFind parsed_data "user" with
      | some user_info =>
        if user_info ≠ "" then
          match jsonLoads user_info with
          | some (.dict uj) =>
            let tg_id := (dictFind uj "id").getD .none
            if strContains (pyStr input) (pyStr tg_id) then .ok 1 else .ok 0
          | some _ => .error "AttributeError: object has no attribute get"
          | Option.none => .error "json.decoder.JSONDecodeError"
        else .ok 0
      | Option.none => .ok 0
    else .ok 0

/-- `Proof.calc_uniqueness`: fingerprint the record, fetch the registry list,
return 0.0 leaving the store untouched on a duplicate, else append the
fingerprint and return 1.0.  The updated store state is returned alongside the
score. -/
def calc_uniqueness (store : S3Object) (input : PyValue) : Except String (Rat × S3Object) := do
  let generated_hash := generate_hash input
  let existing_hashes ← get_hash_list store
  let isDup ← pyIn (.str generated_hash) existing_hashes
  if isDup then
    .ok (0, store)
  else
    match existing_hashes with
    | .list xs => .ok (1, update_hash_list xs generated_hash)
    | _ => .error "TypeError: can only concatenate list"

/-- The `attributes` map `generate` builds. -/
structure Attributes where
  stats : Stats
  messages_count : Nat
  component_scores : ComponentScores
  character_slug : PyValue
  character_level : PyValue
deriving DecidableEq, Repr

/-- The `metadata` map `generate` builds (`recType` models the `type` key). -/
structure Metadata where
  dlp_id : Int
  recType : PyValue
  allow_reuse : Option String
deriving DecidableEq, Repr

/-- Modelled from the spec: the `ProofResponse` output contract
(`my_proof/models/proof_response.py` is not part of the scored sources); the
spec lists the fields `dlp_id, uniqueness, ownership, authenticity, quality,
score, valid, attributes, metadata`, which is exactly the set `generate`
populates. -/
structure ProofResponse where
  dlp_id : Int
  uniqueness : Rat
  ownership : Rat
  authenticity : Rat
  quality : Rat
  score : Rat
  valid : Bool
  attributes : Attributes
  metadata : Metadata
deriving DecidableEq, Repr

/-- The input-selection loop of `Proof.generate`: `input_data` starts as
Python `None` and is overwritten by the first file content that `json.load`
parses; later files are not read.  Files are modelled by their contents, in
directory-listing order (I/O errors, which the source re-raises, are outside
the model). -/
def loadInputData : List String → PyValue
  | [] => .none
  | f :: rest =>
    match jsonLoads f with
    | some v => v
    | Option.none => loadInputData rest

/-- `Proof.generate`: select the input record, run the four scorers in order
(uniqueness with its registry side effect first), aggregate score and
validity, and populate `attributes` and `metadata`.  Returns the response
together with the final registry state. -/
def generate (cfg : Config) (files : List String) (store : S3Object) :
    Except String (ProofResponse × S3Object) :=
  if loadInputData files = .none then
    .error "ValueError: No valid JSON files found in input directory"
  else do
    let (uniq, store') ← calc_uniqueness store (loadInputData files)
    let own ← calc_ownership cfg (loadInputData files)
    let auth ← calc_authenticity (loadInputData files)
    let qd ← calc_quality (loadInputData files)
    let quality := qd.quality_score
    let score := pyRound3 (0.6 * quality + 0.4 * own)
    let valid := uniq == 1
    let slug ← pyGet (loadInputData files) "character_slug" (.str "")
    let level ← pyGet (loadInputData files) "character_level" (.str "")
    let ty ← pyGet (loadInputData files) "type" (.str "")
    .ok ({ dlp_id := cfg.dlp_id
           uniqueness := uniq
           ownership := own
           authenticity := auth
           quality := quality
           score := score
           valid := valid
           attributes := ⟨qd.stats, qd.stats.total_messages, qd.component_scores, slug, level⟩
           metadata := ⟨cfg.dlp_id, ty, cfg.allow_reuse⟩ }, store')

/-! ### Helper lemmas -/

theorem bind_ok_inv {α β : Type} {e : Except String α} {f : α → Except String β} {b : β}
    (h : e >>= f = Except.ok b) : ∃ a, e = Except.ok a ∧ f a = Except.ok b := by
  cases e with
  | error m => exact absurd h (by simp [Bind.bind, Except.bind])
  | ok a => exact ⟨a, rfl, by simpa [Bind.bind, Except.bind] using h⟩

theorem toList_length : (xs : PyList) → xs.toList.length = xs.length
  | .nil => rfl
  | .cons _ xs => by
    simp [PyList.toList, PyList.length, toList_length xs]
    omega

theorem keys_length : (d : PyDict) → d.keys.length = d.length
  | .nil => rfl
  | .cons _ _ d => by
    simp [PyDict.keys, PyDict.length, keys_length d]
    omega

theorem pyEq_str_refl (s : String) : pyEq (.str s) (.str s) = true := by
  simp [pyEq]

theorem listMemPy_append_single (x y : PyValue) :
    (xs : PyList) → listMemPy x (xs.append (.cons y .nil)) = (listMemPy x xs || pyEq x y)
  | .nil => by simp [PyList.append, listMemPy]
  | .cons z zs => by
    simp [PyList.append, listMemPy, listMemPy_append_single x y zs, Bool.or_assoc]

theorem loadInputData_eq_findSome (files : List String) :
    loadInputData files = (files.findSome? jsonLoads).getD .none := by
  induction files with
  | nil => rfl
  | cons f rest ih =>
    simp only [loadInputData, List.findSome?]
    cases jsonLoads f with
    | none => simpa using ih
    | some v => rfl

/-! ### Claim theorems -/

/-- C8: on the two-message scenario
`[(text "hi", date 2024-01-01T00:00:00), (text "", date 2024-01-03T00:00:00)]`
the quality scorer reports exactly two total messages, one empty message, one
large gap, no invalid dates, no replies, component scores
content `0.5`, time `0.9`, interaction `0.0`, and overall quality
`round(0.8*0.5 + 0.1*0.9 + 0.1*0.0, 3) = 0.49`. -/
theorem C8_quality_scenario :
    calc_quality (pyDict [("messages", pyList
      [pyDict [("text", .str "hi"), ("date", .str "2024-01-01T00:00:00")],
       pyDict [("text", .str ""), ("date", .str "2024-01-03T00:00:00")]])]) =
    .ok ⟨0.49, ⟨0.5, 0.9, 0⟩, ⟨2, 1, 0, 1, 0⟩⟩ := by
  with_unfolding_all decide

/-- C9 counterexample: the two records map the same keys to the same values
(Python `==` holds, so they are the same JSON value written with a different
field order), yet their fingerprints differ — duplicate detection depends on
field order, because the fingerprint hashes `str(input)` of the insertion-ordered
dict rather than a canonical form. -/
theorem C9_counterexample :
    pyEq (pyDict [("a", .int 1), ("b", .int 2)]) (pyDict [("b", .int 2), ("a", .int 1)]) = true ∧
    generate_hash (pyDict [("a", .int 1), ("b", .int 2)]) ≠
      generate_hash (pyDict [("b", .int 2), ("a", .int 1)]) := by
  constructor
  · decide
  · decide

/-- C9 (amended): the fingerprint is deterministic — any two records with the
same string form (in particular, identical records) receive the same
fingerprint — but records that are the same JSON value with a different field
order are hashed from their insertion-ordered string form and may receive
different fingerprints (see the counterexample). -/
theorem C9_fingerprint_deterministic (r1 r2 : PyValue) (h : pyStr r1 = pyStr r2) :
    generate_hash r1 = generate_hash r2 := by
  unfold generate_hash sha256Hex
  rw [h]

theorem C9_fingerprint_deterministic_witness :
    pyStr (pyDict [("a", .int 1)]) = pyStr (pyDict [("a", .int 1)]) ∧
    generate_hash (pyDict [("a", .int 1)]) = generate_hash (pyDict [("a", .int 1)]) :=
  ⟨rfl, C9_fingerprint_deterministic (pyDict [("a", .int 1)]) (pyDict [("a", .int 1)]) rfl⟩

/-- C6 counterexample: a registry key that has never been written makes the
fetch raise (`boto3` signals the absent key with a `NoSuchKey` exception and
`get_hash_list` re-raises every exception); it does not return the empty
sequence the claim promises. -/
theorem C6_counterexample :
    get_hash_list S3Object.missing = .error "NoSuchKey" ∧
    get_hash_list S3Object.missing ≠ .ok (pyList []) := by
  constructor
  · rfl
  · decide

/-- C6 (amended): every failure of the registry fetch propagates — including
the never-written key, which surfaces as the store's `NoSuchKey` exception —
and through `calc_uniqueness` such a failure aborts the run; the fetch returns
the empty sequence only when the stored document exists, is a JSON object and
lacks the `hash_list` field (the `data.get('hash_list', [])` default). -/
theorem C6_registry_fetch_characterization :
    (get_hash_list S3Object.missing = .error "NoSuchKey") ∧
    (∀ m : String, get_hash_list (S3Object.failure m) = .error m) ∧
    (∀ d : PyDict, get_hash_list (.doc (.dict d)) = .ok ((dictFind d "hash_list").getD (pyList []))) ∧
    (∀ (input : PyValue) (store : S3Object) (m : String),
       get_hash_list store = .error m → calc_uniqueness store input = .error m) := by
  refine ⟨rfl, fun m => rfl, fun d => rfl, fun input store m h => ?_⟩
  unfold calc_uniqueness
  rw [h]
  rfl

theorem C6_registry_fetch_characterization_witness :
    get_hash_list S3Object.missing = .error "NoSuchKey" ∧
    calc_uniqueness S3Object.missing PyValue.none = .error "NoSuchKey" :=
  ⟨C6_registry_fetch_characterization.1,
   C6_registry_fetch_characterization.2.2.2 PyValue.none S3Object.missing "NoSuchKey"
     C6_registry_fetch_characterization.1⟩

/-- C7 counterexample: the single candidate file `null` parses successfully as
JSON (the value `null`, i.e. Python `None`), yet the orchestrator raises the
fatal no-valid-input error, because the parsed `None` is indistinguishable
from the not-yet-assigned sentinel. -/
theorem C7_counterexample :
    jsonLoads "null" = some PyValue.none ∧
    generate ⟨8, Option.none, Option.none, Option.none⟩ ["null"]
        (S3Object.doc (pyDict [("hash_list", pyList [])])) =
      .error "ValueError: No valid JSON files found in input directory" := by
  constructor
  · decide
  · decide

/-- C7 (amended): candidate files are tried in listing order; a file that
fails to parse is skipped and the next one is tried; the first file that
parses is kept and later files are ignored; the fatal no-valid-input error is
raised if and only if no file parses as JSON or the first file that parses
yields JSON `null` (Python `None`, which the `input_data is None` check cannot
tell from "no file parsed"). -/
theorem C7_input_selection :
    (∀ (f : String) (rest : List String), jsonLoads f = Option.none →
       loadInputData (f :: rest) = loadInputData rest) ∧
    (∀ (f : String) (rest : List String) (v : PyValue), jsonLoads f = some v →
       loadInputData (f :: rest) = v) ∧
    (∀ files : List String, loadInputData files = PyValue.none ↔
       (files.findSome? jsonLoads = Option.none ∨
        files.findSome? jsonLoads = some PyValue.none)) ∧
    (∀ (cfg : Config) (files : List String) (store : S3Object),
       loadInputData files = PyValue.none →
       generate cfg files store = .error "ValueError: No valid JSON files found in input directory") := by
  refine ⟨fun f rest h => by simp [loadInputData, h],
          fun f rest v h => by simp [loadInputData, h],
          fun files => ?_,
          fun cfg files store h => by simp [generate, h]⟩
  rw [loadInputData_eq_findSome]
  cases hf : files.findSome? jsonLoads with
  | none => simp
  | some v => simp [Option.getD]

/-- Closed form of `calc_ownership` for a present payload and bot key: pure
reduction of the configuration matches. -/
theorem calc_ownership_branches (dlp : Int) (ar : Option String) (botKey payload : String)
    (input : PyValue) :
    calc_ownership ⟨dlp, some payload, some botKey, ar⟩ input =
      (if tgComputedHash botKey (tgCheckString (dictOfPairs (parseQsl payload))) =
          assocGetD (dictOfPairs (parseQsl payload)) "hash" "" then
        match assocFind (dictOfPairs (parseQsl payload)) "user" with
        | some u =>
          if u ≠ "" then
            match jsonLoads u with
            | some (.dict d) =>
              if strContains (pyStr input) (pyStr ((dictFind d "id").getD .none)) then
                Except.ok (1 : Rat)
              else Except.ok (0 : Rat)
            | some _ => Except.error "AttributeError: object has no attribute get"
            | Option.none => Except.error "json.decoder.JSONDecodeError"
          else Except.ok (0 : Rat)
        | Option.none => Except.ok (0 : Rat)
      else Except.ok (0 : Rat)) := rfl

theorem C7_input_selection_witness :
    loadInputData ["x", "1"] = loadInputData ["1"] ∧
    loadInputData ["1"] = PyValue.int 1 ∧
    (loadInputData [] = PyValue.none ↔
      (List.findSome? jsonLoads [] = Option.none ∨
       List.findSome? jsonLoads [] = some PyValue.none)) ∧
    generate ⟨8, Option.none, Option.none, Option.none⟩ [] S3Object.missing =
      .error "ValueError: No valid JSON files found in input directory" :=
  ⟨C7_input_selection.1 "x" ["1"] (by decide),
   C7_input_selection.2.1 "1" [] (PyValue.int 1) (by decide),
   C7_input_selection.2.2.1 [],
   C7_input_selection.2.2.2 ⟨8, Option.none, Option.none, Option.none⟩ [] S3Object.missing rfl⟩

/-- C3 counterexample: a payload correctly HMAC-signed for bot key `k` whose
`user` value is the non-JSON text `nj`.  The hash verifies (first conjunct),
yet ownership is not 0.0 — `json.loads` raises and the run fails — refuting
"in every other case ownership is 0.0". -/
theorem C3_counterexample :
    (tgComputedHash "k" (tgCheckString (dictOfPairs (parseQsl
        "user=nj&hash=5228fe3c81705f51fd86d19c36b12256eeb7ddc22559dcc03cc419c1df1858cc"))) =
      assocGetD (dictOfPairs (parseQsl
        "user=nj&hash=5228fe3c81705f51fd86d19c36b12256eeb7ddc22559dcc03cc419c1df1858cc")) "hash" "") ∧
    calc_ownership
      ⟨8, some "user=nj&hash=5228fe3c81705f51fd86d19c36b12256eeb7ddc22559dcc03cc419c1df1858cc",
       some "k", Option.none⟩ (pyDict [("x", .none)]) =
      .error "json.decoder.JSONDecodeError" := by
  constructor
  · decide
  · decide

/-- C3 (amended): with a configured bot key, ownership is 1.0 exactly when the
computed HMAC hex digest equals the payload's `hash` value, a `user` pair is
present (with a non-empty value — `parse_qsl` never produces empty values),
the value parses as a JSON object, and the string form of its `id` entry
(`None` when absent) occurs in the stringified record; the computation raises
exactly when the hash verifies and a non-empty `user` value is not a JSON
object; every other completed outcome — including any payload whose hash
value differs from the computed digest, e.g. one with a single character
changed — is 0.0, and 0.0 and 1.0 are the only possible scores. -/
theorem ownership_ok1_iff (dlp : Int) (ar : Option String)
    (botKey payload : String) (input : PyValue) :
    calc_ownership ⟨dlp, some payload, some botKey, ar⟩ input = .ok 1 ↔
      (tgComputedHash botKey (tgCheckString (dictOfPairs (parseQsl payload))) =
         assocGetD (dictOfPairs (parseQsl payload)) "hash" "" ∧
       ∃ u, assocFind (dictOfPairs (parseQsl payload)) "user" = some u ∧ u ≠ "" ∧
       ∃ d, jsonLoads u = some (.dict d) ∧
         strContains (pyStr input) (pyStr ((dictFind d "id").getD .none)) = true) := by
  rw [calc_ownership_branches]
  by_cases hh : tgComputedHash botKey (tgCheckString (dictOfPairs (parseQsl payload))) =
      assocGetD (dictOfPairs (parseQsl payload)) "hash" ""
  · simp only [hh, if_true, true_and]
    cases hu : assocFind (dictOfPairs (parseQsl payload)) "user" with
    | none => simp [hu]
    | some u =>
      by_cases hue : u = ""
      · subst hue
        simp [hu]
      · simp only [ne_eq, hue, not_false_eq_true, if_true]
        cases hj : jsonLoads u with
        | none => simp [hu, hue, hj]
        | some v =>
          cases v with
          | dict d =>
            by_cases hs : strContains (pyStr input) (pyStr ((dictFind d "id").getD .none)) = true
            · simp [hs, hu, hue, hj]
            · simp only [Bool.not_eq_true] at hs
              simp [hs, hu, hue, hj]
          | none => simp [hu, hue, hj]
          | bool b => simp [hu, hue, hj]
          | int n => simp [hu, hue, hj]
          | float q => simp [hu, hue, hj]
          | str s => simp [hu, hue, hj]
          | list xs => simp [hu, hue, hj]
  · simp [hh]

theorem ownership_error_iff (dlp : Int) (ar : Option String)
    (botKey payload : String) (input : PyValue) :
    (∃ e, calc_ownership ⟨dlp, some payload, some botKey, ar⟩ input = .error e) ↔
      (tgComputedHash botKey (tgCheckString (dictOfPairs (parseQsl payload))) =
         assocGetD (dictOfPairs (parseQsl payload)) "hash" "" ∧
       ∃ u, assocFind (dictOfPairs (parseQsl payload)) "user" = some u ∧ u ≠ "" ∧
         (∀ d, jsonLoads u ≠ some (.dict d))) := by
  rw [calc_ownership_branches]
  by_cases hh : tgComputedHash botKey (tgCheckString (dictOfPairs (parseQsl payload))) =
      assocGetD (dictOfPairs (parseQsl payload)) "hash" ""
  · simp only [hh, if_true, true_and]
    cases hu : assocFind (dictOfPairs (parseQsl payload)) "user" with
    | none => simp [hu]
    | some u =>
      by_cases hue : u = ""
      · subst hue
        simp [hu]
      · simp only [ne_eq, hue, not_false_eq_true, if_true]
        cases hj : jsonLoads u with
        | none => simp [hu, hue, hj]
        | some v =>
          cases v with
          | dict d =>
            by_cases hs : strContains (pyStr input) (pyStr ((dictFind d "id").getD .none)) = true
            · simp [hs, hu, hue, hj]
            · simp only [Bool.not_eq_true] at hs
              simp [hs, hu, hue, hj]
          | none => simp [hu, hue, hj]
          | bool b => simp [hu, hue, hj]
          | int n => simp [hu, hue, hj]
          | float q => simp [hu, hue, hj]
          | str s => simp [hu, hue, hj]
          | list xs => simp [hu, hue, hj]
  · simp [hh]

theorem ownership_total (dlp : Int) (ar : Option String)
    (botKey payload : String) (input : PyValue) (r : Rat)
    (h : calc_ownership ⟨dlp, some payload, some botKey, ar⟩ input = .ok r) :
    r = 0 ∨ r = 1 := by
  rw [calc_ownership_branches] at h
  repeat split at h
  all_goals simp_all

theorem ownership_hash_mismatch (dlp : Int) (ar : Option String)
    (botKey payload : String) (input : PyValue)
    (h : tgComputedHash botKey (tgCheckString (dictOfPairs (parseQsl payload))) ≠
         assocGetD (dictOfPairs (parseQsl payload)) "hash" "") :
    calc_ownership ⟨dlp, some payload, some botKey, ar⟩ input = .ok 0 := by
  rw [calc_ownership_branches]
  simp [h]

/-- C3 (amended): with a configured bot key, ownership is 1.0 exactly when the
computed HMAC hex digest equals the payload's `hash` value, a `user` pair is
present (necessarily with a non-empty value — `parse_qsl` never produces empty
values), the value parses as a JSON object, and the string form of its `id`
entry (the string `None` when `id` is absent) occurs in the stringified
record; the computation raises exactly when the hash verifies and a `user`
pair is present whose value is not a JSON object; 0.0 and 1.0 are the only
scores a completed computation can return; and any payload whose `hash` value
differs from the computed digest — for instance one with a single character
changed — scores 0.0. -/
theorem C3_ownership_characterization (dlp : Int) (ar : Option String)
    (botKey payload : String) (input : PyValue) :
    (calc_ownership ⟨dlp, some payload, some botKey, ar⟩ input = .ok 1 ↔
      (tgComputedHash botKey (tgCheckString (dictOfPairs (parseQsl payload))) =
         assocGetD (dictOfPairs (parseQsl payload)) "hash" "" ∧
       ∃ u, assocFind (dictOfPairs (parseQsl payload)) "user" = some u ∧ u ≠ "" ∧
       ∃ d, jsonLoads u = some (.dict d) ∧
         strContains (pyStr input) (pyStr ((dictFind d "id").getD .none)) = true)) ∧
    ((∃ e, calc_ownership ⟨dlp, some payload, some botKey, ar⟩ input = .error e) ↔
      (tgComputedHash botKey (tgCheckString (dictOfPairs (parseQsl payload))) =
         assocGetD (dictOfPairs (parseQsl payload)) "hash" "" ∧
       ∃ u, assocFind (dictOfPairs (parseQsl payload)) "user" = some u ∧ u ≠ "" ∧
         (∀ d, jsonLoads u ≠ some (.dict d)))) ∧
    (∀ r, calc_ownership ⟨dlp, some payload, some botKey, ar⟩ input = .ok r → r = 0 ∨ r = 1) ∧
    (tgComputedHash botKey (tgCheckString (dictOfPairs (parseQsl payload))) ≠
       assocGetD (dictOfPairs (parseQsl payload)) "hash" "" →
     calc_ownership ⟨dlp, some payload, some botKey, ar⟩ input = .ok 0) :=
  ⟨ownership_ok1_iff dlp ar botKey payload input,
   ownership_error_iff dlp ar botKey payload input,
   fun r h => ownership_total dlp ar botKey payload input r h,
   fun h => ownership_hash_mismatch dlp ar botKey payload input h⟩

theorem C3_ownership_characterization_witness :
    calc_ownership
      ⟨8, some "user=%7B%22id%22%3A42%7D&hash=6ae0cb1d08760f30648bf7d842f9489cb74ab180b959e532d3363eff9951d59d",
       some "k", Option.none⟩ (pyDict [("telegram_id", .int 42)]) = .ok 1 :=
  ((C3_ownership_characterization 8 Option.none "k"
      "user=%7B%22id%22%3A42%7D&hash=6ae0cb1d08760f30648bf7d842f9489cb74ab180b959e532d3363eff9951d59d"
      (pyDict [("telegram_id", .int 42)])).1).2
    ⟨by decide,
     String.mk [lbrace, dquote, 'i', 'd', dquote, ':', '4', '2', rbrace],
     by decide, by decide,
     PyDict.cons "id" (.int 42) .nil,
     by decide, by decide⟩

/-- C4 counterexample: a payload correctly HMAC-signed for the configured bot
key `k2` whose `user` value is the non-JSON text `oops`.  The bot secret is
present, yet the ownership computation raises instead of returning 0.0. -/
theorem C4_counterexample :
    calc_ownership
      ⟨8, some "user=oops&hash=5573f78ce8774c1cc1a87ddf87f6a8f2803bde8f5280019a5a1bd135287add68",
       some "k2", Option.none⟩ (pyDict []) =
      .error "json.decoder.JSONDecodeError" := by
  decide

/-- Closed form of `calc_ownership` when the payload is absent:
`parse_qsl(None)` yields no pairs, so whatever the hash comparison does the
result is 0.0 (no `user` pair exists). -/
theorem calc_ownership_branches_noinit (dlp : Int) (ar : Option String) (botKey : String)
    (input : PyValue) :
    calc_ownership ⟨dlp, Option.none, some botKey, ar⟩ input =
      (if tgComputedHash botKey (tgCheckString (dictOfPairs [])) =
          assocGetD (dictOfPairs []) "hash" "" then Except.ok (0 : Rat)
       else Except.ok (0 : Rat)) := rfl

/-- C4 (amended): the ownership computation degrades malformed, missing or
mismatched verification data to 0.0 rather than raising — a missing payload
yields 0.0, a hash mismatch yields 0.0, and every completed run returns 0.0
or 1.0 — with exactly two exceptions: a missing bot secret is a fatal
configuration error, and a payload whose hash verifies but whose non-empty
`user` value is not a JSON object makes `json.loads`/`.get` raise. -/
theorem C4_ownership_error_conditions (dlp : Int) (ar : Option String)
    (payload : String) (input : PyValue) :
    (calc_ownership ⟨dlp, some payload, Option.none, ar⟩ input =
       .error "AttributeError: NoneType has no attribute encode") ∧
    (∀ botKey : String, calc_ownership ⟨dlp, Option.none, some botKey, ar⟩ input = .ok 0) ∧
    (∀ botKey : String,
       (∃ e, calc_ownership ⟨dlp, some payload, some botKey, ar⟩ input = .error e) ↔
       (tgComputedHash botKey (tgCheckString (dictOfPairs (parseQsl payload))) =
          assocGetD (dictOfPairs (parseQsl payload)) "hash" "" ∧
        ∃ u, assocFind (dictOfPairs (parseQsl payload)) "user" = some u ∧ u ≠ "" ∧
          (∀ d, jsonLoads u ≠ some (.dict d)))) ∧
    (∀ botKey : String,
       (∀ e, calc_ownership ⟨dlp, some payload, some botKey, ar⟩ input ≠ .error e) →
       ∃ r, calc_ownership ⟨dlp, some payload, some botKey, ar⟩ input = .ok r ∧
         (r = 0 ∨ r = 1)) := by
  refine ⟨rfl, fun botKey => ?_, fun botKey => ownership_error_iff dlp ar botKey payload input,
          fun botKey hne => ?_⟩
  · rw [calc_ownership_branches_noinit]
    simp
  · cases hres : calc_ownership ⟨dlp, some payload, some botKey, ar⟩ input with
    | error e => exact absurd hres (hne e)
    | ok r => exact ⟨r, rfl, ownership_total dlp ar botKey payload input r hres⟩

theorem C4_ownership_error_conditions_witness :
    calc_ownership ⟨8, some "hash=00", Option.none, Option.none⟩ (pyDict []) =
      .error "AttributeError: NoneType has no attribute encode" ∧
    calc_ownership ⟨8, Option.none, some "k", Option.none⟩ (pyDict []) = .ok 0 ∧
    ∃ r, calc_ownership ⟨8, some "hash=00", some "k", Option.none⟩ (pyDict []) = .ok r ∧
      (r = 0 ∨ r = 1) := by
  have hok : calc_ownership ⟨8, some "hash=00", some "k", Option.none⟩ (pyDict []) = .ok 0 := by
    decide
  refine ⟨(C4_ownership_error_conditions 8 Option.none "hash=00" (pyDict [])).1,
          (C4_ownership_error_conditions 8 Option.none "hash=00" (pyDict [])).2.1 "k",
          (C4_ownership_error_conditions 8 Option.none "hash=00" (pyDict [])).2.2.2 "k"
            (fun e he => ?_)⟩
  rw [hok] at he
  exact Except.noConfusion he

/-- C10: when the hash verifies and the `user` value is a JSON object without
an `id` key, `json.loads(user_info).get("id")` is Python `None`, whose string
form is the four-character text `None`; ownership is then 1.0 exactly when
that text occurs in the stringified record, instead of a missing `id` being an
automatic 0.0. -/
theorem C10_missing_id_substring_None (dlp : Int) (ar : Option String)
    (botKey payload : String) (input : PyValue)
    (hh : tgComputedHash botKey (tgCheckString (dictOfPairs (parseQsl payload))) =
          assocGetD (dictOfPairs (parseQsl payload)) "hash" "")
    (u : String) (hu : assocFind (dictOfPairs (parseQsl payload)) "user" = some u)
    (hue : u ≠ "") (d : PyDict) (hj : jsonLoads u = some (.dict d))
    (hid : dictFind d "id" = Option.none) :
    calc_ownership ⟨dlp, some payload, some botKey, ar⟩ input =
      (if strContains (pyStr input) "None" then Except.ok 1 else Except.ok 0) := by
  rw [calc_ownership_branches]
  simp [hh, hu, hue, hj, hid]
  rfl

theorem msgStep_total (d : PyDict) (st : Stats) :
    (msgStep d st).total_messages = st.total_messages := by
  simp only [msgStep]
  split <;> split <;> rfl

theorem msgStep_empty (d : PyDict) (st : Stats) :
    (msgStep d st).empty_messages ≤ st.empty_messages + 1 := by
  simp only [msgStep]
  split <;> split <;> simp

theorem gapStep_total (prev : Option Int) (cur : Int) (st : Stats) :
    (gapStep prev cur st).total_messages = st.total_messages := by
  cases prev with
  | none => rfl
  | some p =>
    simp only [gapStep]
    split <;> rfl

theorem gapStep_empty (prev : Option Int) (cur : Int) (st : Stats) :
    (gapStep prev cur st).empty_messages = st.empty_messages := by
  cases prev with
  | none => rfl
  | some p =>
    simp only [gapStep]
    split <;> rfl

theorem scanMessages_counts : ∀ (elems : List PyValue) (prev : Option Int) (st st' : Stats),
    scanMessages elems prev st = .ok st' →
    st'.total_messages = st.total_messages ∧
    st'.empty_messages ≤ st.empty_messages + elems.length
  | [], _, st, st', h => by
    simp [scanMessages] at h
    subst h
    simp
  | msg :: rest, prev, st, st', h => by
    cases msg with
    | dict d =>
      simp only [scanMessages] at h
      cases hd : msgDate d with
      | some cur =>
        rw [hd] at h
        obtain ⟨ht, he⟩ := scanMessages_counts rest (some cur) _ st' h
        have h1 := msgStep_empty d st
        have h2 := gapStep_empty prev cur (msgStep d st)
        constructor
        · rw [ht, gapStep_total, msgStep_total]
        · simp only [List.length_cons]
          omega
      | none =>
        rw [hd] at h
        obtain ⟨ht, he⟩ := scanMessages_counts rest prev _ st' h
        have ht' : st'.total_messages = (msgStep d st).total_messages := ht
        have he' : st'.empty_messages ≤ (msgStep d st).empty_messages + rest.length := he
        have h1 := msgStep_empty d st
        constructor
        · rw [ht', msgStep_total]
        · simp only [List.length_cons]
          omega
    | none => simp [scanMessages] at h
    | bool b => simp [scanMessages] at h
    | int n => simp [scanMessages] at h
    | float q => simp [scanMessages] at h
    | str s => simp [scanMessages] at h
    | list xs => simp [scanMessages] at h

theorem roundHalfEven_bounds (x : Rat) (h0 : 0 ≤ x) (h1 : x ≤ 1000) :
    0 ≤ roundHalfEven x ∧ roundHalfEven x ≤ 1000 := by
  simp only [roundHalfEven]
  have hf0 : 0 ≤ ⌊x⌋ := Int.floor_nonneg.mpr h0
  have hfle : (⌊x⌋ : Rat) ≤ x := Int.floor_le x
  have hf1000 : ⌊x⌋ ≤ 1000 := by
    calc ⌊x⌋ ≤ ⌊(1000 : Rat)⌋ := Int.floor_le_floor h1
      _ = 1000 := by norm_num
  have hplus : ¬(x - (⌊x⌋ : Rat) < 1 / 2) → ⌊x⌋ + 1 ≤ 1000 := by
    intro hge
    push_neg at hge
    have : (⌊x⌋ : Rat) < 1000 := by linarith
    have : ⌊x⌋ < 1000 := by exact_mod_cast this
    omega
  split
  · exact ⟨hf0, hf1000⟩
  · split
    · rename_i hlt hgt
      exact ⟨by omega, hplus hlt⟩
    · split
      · exact ⟨hf0, hf1000⟩
      · rename_i hlt _ _
        exact ⟨by omega, hplus hlt⟩

theorem pyRound3_bounds (q : Rat) (h0 : 0 ≤ q) (h1 : q ≤ 1) :
    0 ≤ pyRound3 q ∧ pyRound3 q ≤ 1 := by
  unfold pyRound3
  have hx0 : 0 ≤ q * 1000 := by positivity
  have hx1 : q * 1000 ≤ 1000 := by nlinarith
  obtain ⟨hl, hr⟩ := roundHalfEven_bounds _ hx0 hx1
  constructor
  · apply div_nonneg _ (by norm_num)
    exact_mod_cast hl
  · rw [div_le_one (by norm_num)]
    exact_mod_cast hr

theorem calc_quality_bounds (input : PyValue) (qd : QualityData)
    (h : calc_quality input = .ok qd) :
    (0 ≤ qd.quality_score ∧ qd.quality_score ≤ 1) ∧
    (0 ≤ qd.component_scores.content ∧ qd.component_scores.content ≤ 1) ∧
    (0 ≤ qd.component_scores.time ∧ qd.component_scores.time ≤ 1) ∧
    (0 ≤ qd.component_scores.interaction ∧ qd.component_scores.interaction ≤ 1) := by
  unfold calc_quality at h
  obtain ⟨msgsVal, hm, h⟩ := bind_ok_inv h
  obtain ⟨total, htot, h⟩ := bind_ok_inv h
  obtain ⟨elems, helems, h⟩ := bind_ok_inv h
  obtain ⟨stats, hscan, h⟩ := bind_ok_inv h
  simp only [Except.ok.injEq] at h
  subst h
  have hcounts := scanMessages_counts elems Option.none ⟨total, 0, 0, 0, 0⟩ stats hscan
  have hempty : stats.empty_messages ≤ stats.total_messages := by
    cases msgsVal with
    | list xs =>
      have htot' : total = xs.length := by
        simpa [pyLen] using htot.symm
      have helems' : elems = xs.toList := by
        simpa [pyIterate] using helems.symm
      have hT : stats.total_messages = total := hcounts.1
      have hE : stats.empty_messages ≤ 0 + elems.length := hcounts.2
      subst helems'
      rw [toList_length] at hE
      omega
    | str s =>
      have helems' : elems = s.data.map (fun c => PyValue.str (String.mk [c])) := by
        simpa [pyIterate] using helems.symm
      cases hs : s.data with
      | nil =>
        rw [helems', hs] at hscan
        simp [scanMessages] at hscan
        subst hscan
        simp
      | cons c cs =>
        rw [helems', hs] at hscan
        simp [scanMessages] at hscan
    | dict dd =>
      have helems' : elems = dd.keys.map PyValue.str := by
        simpa [pyIterate] using helems.symm
      cases hk : dd.keys with
      | nil =>
        rw [helems', hk] at hscan
        simp [scanMessages] at hscan
        subst hscan
        simp
      | cons c cs =>
        rw [helems', hk] at hscan
        simp [scanMessages] at hscan
    | none => simp [pyLen] at htot
    | bool b => simp [pyLen] at htot
    | int n => simp [pyLen] at htot
    | float q => simp [pyLen] at htot
  by_cases h0 : stats.total_messages = 0
  · simp only [h0, if_true, eq_self_iff_true]
    have hz : (0 : Rat) ≤ 0 ∧ (0 : Rat) ≤ 1 := by norm_num
    have hb := pyRound3_bounds 0 (by norm_num) (by norm_num)
    constructor
    · constructor
      · simpa using (pyRound3_bounds (0 * 0.8 + 0 * 0.1 + 0 * 0.1) (by norm_num) (by norm_num)).1
      · simpa using (pyRound3_bounds (0 * 0.8 + 0 * 0.1 + 0 * 0.1) (by norm_num) (by norm_num)).2
    · exact ⟨hb, hb, hb⟩
  · have htpos : 0 < stats.total_messages := Nat.pos_of_ne_zero h0
    have htq : (0 : Rat) < (stats.total_messages : Rat) := by exact_mod_cast htpos
    have heq : (stats.empty_messages : Rat) ≤ (stats.total_messages : Rat) := by
      exact_mod_cast hempty
    have hc0 : (0 : Rat) ≤ 1 - (stats.empty_messages : Rat) / (stats.total_messages : Rat) := by
      have : (stats.empty_messages : Rat) / (stats.total_messages : Rat) ≤ 1 :=
        (div_le_one htq).mpr heq
      linarith
    have hc1 : 1 - (stats.empty_messages : Rat) / (stats.total_messages : Rat) ≤ 1 := by
      have : (0 : Rat) ≤ (stats.empty_messages : Rat) / (stats.total_messages : Rat) :=
        div_nonneg (by positivity) (le_of_lt htq)
      linarith
    have hxnn : (0 : Rat) ≤ (stats.large_gaps : Rat) * 0.1 +
        (stats.invalid_dates : Rat) / (stats.total_messages : Rat) := by
      have : (0 : Rat) ≤ (stats.invalid_dates : Rat) / (stats.total_messages : Rat) :=
        div_nonneg (by positivity) (le_of_lt htq)
      positivity
    have ht0 : (0 : Rat) ≤ 1 - min 1 ((stats.large_gaps : Rat) * 0.1 +
        (stats.invalid_dates : Rat) / (stats.total_messages : Rat)) := by
      have := min_le_left (1 : Rat) ((stats.large_gaps : Rat) * 0.1 +
        (stats.invalid_dates : Rat) / (stats.total_messages : Rat))
      linarith
    have ht1 : 1 - min 1 ((stats.large_gaps : Rat) * 0.1 +
        (stats.invalid_dates : Rat) / (stats.total_messages : Rat)) ≤ 1 := by
      have : (0 : Rat) ≤ min 1 ((stats.large_gaps : Rat) * 0.1 +
        (stats.invalid_dates : Rat) / (stats.total_messages : Rat)) :=
        le_min (by norm_num) hxnn
      linarith
    have hynn : (0 : Rat) ≤ (stats.replies : Rat) / ((stats.total_messages : Rat) * 0.3) := by
      apply div_nonneg (by positivity)
      positivity
    have hi0 : (0 : Rat) ≤ min 1 ((stats.replies : Rat) / ((stats.total_messages : Rat) * 0.3)) :=
      le_min (by norm_num) hynn
    have hi1 : min 1 ((stats.replies : Rat) / ((stats.total_messages : Rat) * 0.3)) ≤ 1 :=
      min_le_left 1 _
    simp only [h0, if_false]
    refine ⟨?_, pyRound3_bounds _ hc0 hc1, pyRound3_bounds _ ht0 ht1, pyRound3_bounds _ hi0 hi1⟩
    have hq0 : (0 : Rat) ≤ (1 - (stats.empty_messages : Rat) / (stats.total_messages : Rat)) * 0.8 +
        (1 - min 1 ((stats.large_gaps : Rat) * 0.1 +
          (stats.invalid_dates : Rat) / (stats.total_messages : Rat))) * 0.1 +
        (min 1 ((stats.replies : Rat) / ((stats.total_messages : Rat) * 0.3))) * 0.1 := by
      nlinarith
    have hq1 : (1 - (stats.empty_messages : Rat) / (stats.total_messages : Rat)) * 0.8 +
        (1 - min 1 ((stats.large_gaps : Rat) * 0.1 +
          (stats.invalid_dates : Rat) / (stats.total_messages : Rat))) * 0.1 +
        (min 1 ((stats.replies : Rat) / ((stats.total_messages : Rat) * 0.3))) * 0.1 ≤ 1 := by
      nlinarith
    exact pyRound3_bounds _ hq0 hq1

theorem calc_uniqueness_total (store : S3Object) (input : PyValue) (r : Rat) (s' : S3Object)
    (h : calc_uniqueness store input = .ok (r, s')) : r = 0 ∨ r = 1 := by
  unfold calc_uniqueness at h
  obtain ⟨existing, hex, h⟩ := bind_ok_inv h
  obtain ⟨isDup, hdup, h⟩ := bind_ok_inv h
  split at h
  · simp_all
  · split at h <;> simp_all

theorem calc_ownership_nokey (dlp : Int) (tid : Option String) (ar : Option String)
    (input : PyValue) :
    calc_ownership ⟨dlp, tid, Option.none, ar⟩ input =
      .error "AttributeError: NoneType has no attribute encode" := rfl

theorem calc_ownership_total (cfg : Config) (input : PyValue) (r : Rat)
    (h : calc_ownership cfg input = .ok r) : r = 0 ∨ r = 1 := by
  obtain ⟨dlp, tid, tbk, ar⟩ := cfg
  cases tbk with
  | none =>
    rw [calc_ownership_nokey] at h
    exact absurd h (by simp)
  | some k =>
    cases tid with
    | some p => exact ownership_total dlp ar k p input r h
    | none =>
      rw [calc_ownership_branches_noinit] at h
      split at h <;> simp_all

theorem calc_authenticity_total (input : PyValue) (r : Rat)
    (h : calc_authenticity input = .ok r) : r = 0 ∨ r = 1 := by
  unfold calc_authenticity at h
  obtain ⟨ct, hct, h⟩ := bind_ok_inv h
  split at h <;> simp_all

/-- C5: with a fetched registry list, a fingerprint already present yields
0.0 and leaves the store untouched; a fresh fingerprint yields 1.0 and the
stored list becomes the old list with the fingerprint appended exactly once,
so an identical resubmission after the successful run yields 0.0 and leaves
the grown registry unchanged. -/
theorem C5_uniqueness_registry (input : PyValue) (store : S3Object) (xs : PyList)
    (hfetch : get_hash_list store = .ok (.list xs)) :
    (listMemPy (.str (generate_hash input)) xs = true →
       calc_uniqueness store input = .ok (0, store)) ∧
    (listMemPy (.str (generate_hash input)) xs = false →
       calc_uniqueness store input = .ok (1, update_hash_list xs (generate_hash input)) ∧
       get_hash_list (update_hash_list xs (generate_hash input)) =
         .ok (.list (xs.append (.cons (.str (generate_hash input)) .nil))) ∧
       calc_uniqueness (update_hash_list xs (generate_hash input)) input =
         .ok (0, update_hash_list xs (generate_hash input))) := by
  have hupd : get_hash_list (update_hash_list xs (generate_hash input)) =
      .ok (.list (xs.append (.cons (.str (generate_hash input)) .nil))) := by
    simp [get_hash_list, update_hash_list, s3GetObject, pyDict, PyDict.ofPairs, dictFind,
      Bind.bind, Except.bind]
  constructor
  · intro hmem
    unfold calc_uniqueness
    rw [hfetch]
    simp [Bind.bind, Except.bind, pyIn, hmem]
  · intro hmem
    refine ⟨?_, hupd, ?_⟩
    · unfold calc_uniqueness
      rw [hfetch]
      simp [Bind.bind, Except.bind, pyIn, hmem]
    · unfold calc_uniqueness
      rw [hupd]
      have hmem2 : listMemPy (.str (generate_hash input))
          (xs.append (.cons (.str (generate_hash input)) .nil)) = true := by
        rw [listMemPy_append_single, pyEq_str_refl, Bool.or_true]
      simp [Bind.bind, Except.bind, pyIn, hmem2]

theorem C5_uniqueness_registry_witness :
    get_hash_list (S3Object.doc (pyDict [("hash_list", pyList [])])) = .ok (.list .nil) ∧
    calc_uniqueness (S3Object.doc (pyDict [("hash_list", pyList [])])) PyValue.none =
      .ok (1, update_hash_list .nil (generate_hash PyValue.none)) ∧
    calc_uniqueness (update_hash_list .nil (generate_hash PyValue.none)) PyValue.none =
      .ok (0, update_hash_list .nil (generate_hash PyValue.none)) := by
  have hfetch : get_hash_list (S3Object.doc (pyDict [("hash_list", pyList [])])) =
      .ok (.list .nil) := by decide
  have h := (C5_uniqueness_registry PyValue.none
    (S3Object.doc (pyDict [("hash_list", pyList [])])) .nil hfetch).2 (by rfl)
  exact ⟨hfetch, h.1, h.2.2⟩

/-- Inversion of a completed `generate` run: the four scorers completed in
order and the response is exactly the record assembled from their outputs. -/
theorem generate_ok_inv (cfg : Config) (files : List String) (store : S3Object)
    (resp : ProofResponse) (store' : S3Object)
    (h : generate cfg files store = .ok (resp, store')) :
    ∃ uniq own auth qd slug level ty,
      calc_uniqueness store (loadInputData files) = .ok (uniq, store') ∧
      calc_ownership cfg (loadInputData files) = .ok own ∧
      calc_authenticity (loadInputData files) = .ok auth ∧
      calc_quality (loadInputData files) = .ok qd ∧
      pyGet (loadInputData files) "character_slug" (.str "") = .ok slug ∧
      pyGet (loadInputData files) "character_level" (.str "") = .ok level ∧
      pyGet (loadInputData files) "type" (.str "") = .ok ty ∧
      resp = ⟨cfg.dlp_id, uniq, own, auth, qd.quality_score,
              pyRound3 (0.6 * qd.quality_score + 0.4 * own), uniq == 1,
              ⟨qd.stats, qd.stats.total_messages, qd.component_scores, slug, level⟩,
              ⟨cfg.dlp_id, ty, cfg.allow_reuse⟩⟩ := by
  unfold generate at h
  split at h
  · exact absurd h (by simp)
  · obtain ⟨p, hp, h⟩ := bind_ok_inv h
    obtain ⟨uniq, st2⟩ := p
    obtain ⟨own, hown, h⟩ := bind_ok_inv h
    obtain ⟨auth, hauth, h⟩ := bind_ok_inv h
    obtain ⟨qd, hqd, h⟩ := bind_ok_inv h
    obtain ⟨slug, hslug, h⟩ := bind_ok_inv h
    obtain ⟨level, hlevel, h⟩ := bind_ok_inv h
    obtain ⟨ty, hty, h⟩ := bind_ok_inv h
    simp only [Except.ok.injEq, Prod.mk.injEq] at h
    obtain ⟨hresp, hstore⟩ := h
    subst hstore
    exact ⟨uniq, own, auth, qd, slug, level, ty, hp, hown, hauth, hqd, hslug, hlevel, hty,
      hresp.symm⟩

/-- C2: for every run that completes, the final score is
`round(0.6*quality + 0.4*ownership, 3)` — a function of quality and ownership
only — and `valid` holds exactly when uniqueness equals 1.0. -/
theorem C2_score_and_validity (cfg : Config) (files : List String) (store : S3Object)
    (resp : ProofResponse) (store' : S3Object)
    (h : generate cfg files store = .ok (resp, store')) :
    resp.score = pyRound3 (0.6 * resp.quality + 0.4 * resp.ownership) ∧
    (resp.valid = true ↔ resp.uniqueness = 1) := by
  obtain ⟨uniq, own, auth, qd, slug, level, ty, hp, hown, hauth, hqd, hslug, hlevel, hty,
    hresp⟩ := generate_ok_inv cfg files store resp store' h
  subst hresp
  refine ⟨rfl, ?_⟩
  simp [beq_iff_eq]

/-- C1: in every completed run, the four top-level scores and the three
quality component scores all lie in the closed interval `[0, 1]`. -/
theorem C1_scores_in_unit_interval (cfg : Config) (files : List String) (store : S3Object)
    (resp : ProofResponse) (store' : S3Object)
    (h : generate cfg files store = .ok (resp, store')) :
    (0 ≤ resp.uniqueness ∧ resp.uniqueness ≤ 1) ∧
    (0 ≤ resp.ownership ∧ resp.ownership ≤ 1) ∧
    (0 ≤ resp.authenticity ∧ resp.authenticity ≤ 1) ∧
    (0 ≤ resp.quality ∧ resp.quality ≤ 1) ∧
    (0 ≤ resp.attributes.component_scores.content ∧
       resp.attributes.component_scores.content ≤ 1) ∧
    (0 ≤ resp.attributes.component_scores.time ∧
       resp.attributes.component_scores.time ≤ 1) ∧
    (0 ≤ resp.attributes.component_scores.interaction ∧
       resp.attributes.component_scores.interaction ≤ 1) := by
  obtain ⟨uniq, own, auth, qd, slug, level, ty, hp, hown, hauth, hqd, -, -, -, hresp⟩ :=
    generate_ok_inv cfg files store resp store' h
  subst hresp
  have hu := calc_uniqueness_total store (loadInputData files) uniq store' hp
  have ho := calc_ownership_total cfg (loadInputData files) own hown
  have ha := calc_authenticity_total (loadInputData files) auth hauth
  have hq := calc_quality_bounds (loadInputData files) qd hqd
  refine ⟨?_, ?_, ?_, hq.1, hq.2.1, hq.2.2.1, hq.2.2.2⟩
  · rcases hu with h' | h' <;> subst h' <;> norm_num
  · rcases ho with h' | h' <;> subst h' <;> norm_num
  · rcases ha with h' | h' <;> subst h' <;> norm_num

theorem C1_scores_in_unit_interval_witness :
    generate ⟨8, Option.none, some "b", Option.none⟩ ["\x7b\x22type\x22: \x22ai_chat\x22\x7d"]
        (S3Object.doc (pyDict [("hash_list", pyList [])])) =
      .ok (⟨8, 1, 0, 1, 0, 0, true,
            ⟨⟨0, 0, 0, 0, 0⟩, 0, ⟨0, 0, 0⟩, .str "", .str ""⟩,
            ⟨8, .str "ai_chat", Option.none⟩⟩,
           update_hash_list .nil (generate_hash (pyDict [("type", .str "ai_chat")]))) ∧
    ((0 : Rat) ≤ 1 ∧ (1 : Rat) ≤ 1) ∧ ((0 : Rat) ≤ 0 ∧ (0 : Rat) ≤ 1) ∧
    ((0 : Rat) ≤ 1 ∧ (1 : Rat) ≤ 1) ∧ ((0 : Rat) ≤ 0 ∧ (0 : Rat) ≤ 1) ∧
    ((0 : Rat) ≤ 0 ∧ (0 : Rat) ≤ 1) ∧ ((0 : Rat) ≤ 0 ∧ (0 : Rat) ≤ 1) ∧
    ((0 : Rat) ≤ 0 ∧ (0 : Rat) ≤ 1) := by
  have hgen : generate ⟨8, Option.none, some "b", Option.none⟩
      ["\x7b\x22type\x22: \x22ai_chat\x22\x7d"]
      (S3Object.doc (pyDict [("hash_list", pyList [])])) =
      .ok (⟨8, 1, 0, 1, 0, 0, true,
            ⟨⟨0, 0, 0, 0, 0⟩, 0, ⟨0, 0, 0⟩, .str "", .str ""⟩,
            ⟨8, .str "ai_chat", Option.none⟩⟩,
           update_hash_list .nil (generate_hash (pyDict [("type", .str "ai_chat")]))) := by
    with_unfolding_all decide
  exact ⟨hgen, C1_scores_in_unit_interval _ _ _ _ _ hgen⟩

theorem C2_score_and_validity_witness :
    generate ⟨8, Option.none, some "k", Option.none⟩ ["\x7b\x7d"]
        (S3Object.doc (pyDict [("hash_list", pyList [])])) =
      .ok (⟨8, 1, 0, 0, 0, 0, true,
            ⟨⟨0, 0, 0, 0, 0⟩, 0, ⟨0, 0, 0⟩, .str "", .str ""⟩,
            ⟨8, .str "", Option.none⟩⟩,
           update_hash_list .nil (generate_hash (pyDict []))) ∧
    (0 : Rat) = pyRound3 (0.6 * 0 + 0.4 * 0) ∧
    (true = true ↔ (1 : Rat) = 1) := by
  have hgen : generate ⟨8, Option.none, some "k", Option.none⟩ ["\x7b\x7d"]
      (S3Object.doc (pyDict [("hash_list", pyList [])])) =
      .ok (⟨8, 1, 0, 0, 0, 0, true,
            ⟨⟨0, 0, 0, 0, 0⟩, 0, ⟨0, 0, 0⟩, .str "", .str ""⟩,
            ⟨8, .str "", Option.none⟩⟩,
           update_hash_list .nil (generate_hash (pyDict []))) := by
    with_unfolding_all decide
  have h := C2_score_and_validity _ _ _ _ _ hgen
  exact ⟨hgen, h.1, h.2⟩

theorem C10_missing_id_substring_None_witness :
    calc_ownership
      ⟨8, some "user=%7B%22a%22%3A1%7D&hash=4bb875a29dfe17ff2c916c9ec32cabb72f835b4868e3d5c00ed20642ccf43f71",
       some "k", Option.none⟩ (pyDict [("x", .none)]) = .ok 1 := by
  have h := C10_missing_id_substring_None 8 Option.none "k"
    "user=%7B%22a%22%3A1%7D&hash=4bb875a29dfe17ff2c916c9ec32cabb72f835b4868e3d5c00ed20642ccf43f71"
    (pyDict [("x", .none)]) (by decide)
    (String.mk [lbrace, dquote, 'a', dquote, ':', '1', rbrace]) (by decide) (by decide)
    (PyDict.cons "a" (.int 1) .nil) (by decide) (by decide)
  rw [h]
  decide

end MyProof
